import Mathlib

/-!
Shallow embedding of the backend-youtube repository (TypeScript, Hono on
Cloudflare Workers with a D1 database). The embedded functions are translated
from src/src/index.ts (the Hono app together with the appended autochunk
helper module) and from the unnamed source files (the drizzle schema and the
drizzle-backed revision of the app). Asynchronous I/O is modelled by passing
the network fetch as an explicit oracle function, and the D1 database by
passing the current table contents as explicit data.
-/

/-! ### Chunk planner: autochunk

Translated from the autochunk module (src/src/index.ts, lines 250-313).
The TypeScript function is generic over items T extends Record | string |
number and computes each item cost at runtime via
isPlainObject(item) ? Object.keys(item).length : 1. The embedding is generic
over the item type with an explicit cost function; ChunkItem with itemParams
is the instance matching the runtime reflection on record / string / number
items, and videoRowParams below is the instance for the 5-field video rows of
batchInsertVideos. -/

inductive ChunkItem where
  | obj (keys : List String)
  | str (s : String)
  | num (n : Int)
deriving DecidableEq

/-- Parameter cost of one item: isPlainObject(item) ? Object.keys(item).length : 1. -/
def itemParams : ChunkItem → Nat
  | ChunkItem.obj keys => keys.length
  | ChunkItem.str _ => 1
  | ChunkItem.num _ => 1

/-- Cloudflare D1 SQL variable limit (const D1_MAX_PARAMETERS = 100). -/
def D1_MAX_PARAMETERS : Nat := 100

/-- The two Error values thrown by autochunk. -/
inductive ChunkError where
  | precheckFailed (count : Nat)
  | itemTooLarge (cost : Nat)
deriving DecidableEq

/-- Total parameter cost of a batch: the sum of the per-item costs. -/
def sumCost {T : Type} (cost : T → Nat) (l : List T) : Nat := (l.map cost).sum

/-- The for-of loop of autochunk, with the final push of a non-empty trailing
chunk. State: remaining items, chunks accumulated so far, the current chunk,
and chunkParameters (the running cost of the current chunk). -/
def autochunkLoop {T : Type} (cost : T → Nat) (other : Nat) :
    List T → List (List T) → List T → Nat → Except ChunkError (List (List T))
  | [], chunks, chunk, _ =>
      Except.ok (if chunk.length ≠ 0 then chunks ++ [chunk] else chunks)
  | item :: rest, chunks, chunk, chunkParameters =>
      if cost item > D1_MAX_PARAMETERS then
        Except.error (ChunkError.itemTooLarge (cost item))
      else if chunkParameters + cost item + other > D1_MAX_PARAMETERS then
        autochunkLoop cost other rest (chunks ++ [chunk]) [item] (cost item)
      else
        autochunkLoop cost other rest chunks (chunk ++ [item]) (chunkParameters + cost item)

/-- The planning phase of autochunk: the otherParametersCount pre-check
followed by the chunk-building loop. The returned list is exactly the list of
batches that the execution phase then passes, in order, to the callback cb. -/
def autochunkPlan {T : Type} (cost : T → Nat) (items : List T) (other : Nat) :
    Except ChunkError (List (List T)) :=
  if other > D1_MAX_PARAMETERS then Except.error (ChunkError.precheckFailed other)
  else autochunkLoop cost other items [] [] 0

/-- Full autochunk: plan, then run cb on every chunk in order and flatten the
per-chunk results. The callback is modelled as a pure function from a batch to
its result list. -/
def autochunk {T U : Type} (cost : T → Nat) (items : List T)
    (cb : List T → List U) (other : Nat) : Except ChunkError (List U) :=
  match autochunkPlan cost items other with
  | Except.error e => Except.error e
  | Except.ok chunks => Except.ok ((chunks.map cb).flatten)

/-- A concrete plain object with 60 keys, as an autochunk item. -/
def keys60 : List String := (List.range 60).map (fun n => toString n)

/-- The 60-key object item used in the counterexample to claim C1. -/
def bigItem60 : ChunkItem := ChunkItem.obj keys60

/-- A concrete plain object with 101 keys, whose own cost exceeds the ceiling. -/
def keys101 : List String := (List.range 101).map (fun n => toString n)

/-- The 101-key object item used for the ItemTooLarge witness. -/
def bigItem101 : ChunkItem := ChunkItem.obj keys101

/-! ### Identity resolver: extractUsername

Translated from extractUsername (src/src/index.ts lines 10-24, identical
logic in the unnamed drizzle revision lines 13-22). The anchored regular
expression is

  /^https?:\x2f\x2f(www\.)?youtube\.com\x2f(channel\x2fUC[\w-]\x7b21\x7d[AQgw]|(c\x2f|user\x2f)?[\w@-]+)$/

and the function returns the input unchanged when it starts with the at sign,
otherwise match[2] (the whole second capture group, which spans from the end
of youtube.com slash to the end of the string) when the regex matches, and
null otherwise. The matcher below follows the regex alternatives in the order
a backtracking engine tries them; since the branch literals are mutually
exclusive prefixes, first-match order is extensionally the backtracking
semantics. -/

/-- JS word character class backslash-w: ASCII letters, digits, underscore. -/
def isWordChar (c : Char) : Bool := c.isAlpha || c.isDigit || c == '_'

/-- Character class of word characters and the dash. -/
def isWordDashChar (c : Char) : Bool := isWordChar c || c == '-'

/-- Character class of word characters, the at sign and the dash. -/
def isUserSegChar (c : Char) : Bool := isWordChar c || c == '@' || c == '-'

/-- Strip a literal pattern from the front of the input, returning the rest. -/
def stripLit : List Char → List Char → Option (List Char)
  | [], s => some s
  | _ :: _, [] => none
  | p :: ps, c :: cs => if c == p then stripLit ps cs else none

/-- After the literal channel slash UC: exactly n word-or-dash characters,
then a single character among A, Q, g, w, then the end of the input. -/
def matchTail21 : Nat → List Char → Bool
  | 0, [c] => c == 'A' || c == 'Q' || c == 'g' || c == 'w'
  | 0, _ => false
  | _ + 1, [] => false
  | n + 1, c :: cs => isWordDashChar c && matchTail21 n cs

/-- One or more characters of the user segment class, up to the end. -/
def matchUserSeg (s : List Char) : Bool :=
  !s.isEmpty && s.all isUserSegChar

/-- The second capture group of the regex, matched against the whole rest of
the input: the channel alternative, or an optional c-slash or user-slash
prefix followed by a non-empty user segment. -/
def matchGroup2 (s : List Char) : Bool :=
  (match stripLit ("channel/UC".toList) s with
   | some rest => matchTail21 21 rest
   | none => false) ||
  (match stripLit ("c/".toList) s with
   | some rest => matchUserSeg rest
   | none => false) ||
  (match stripLit ("user/".toList) s with
   | some rest => matchUserSeg rest
   | none => false) ||
  matchUserSeg s

/-- Host part: optional www dot, then the youtube.com slash literal; on
success returns the rest of the input, which is exactly what capture group 2
spans. The second branch is the backtracking fallback without www. -/
def matchHost (r : List Char) : Option (List Char) :=
  match stripLit ("www.".toList) r with
  | some r2 =>
    (match stripLit ("youtube.com/".toList) r2 with
     | some g2 => if matchGroup2 g2 then some g2 else none
     | none =>
       match stripLit ("youtube.com/".toList) r with
       | some g2 => if matchGroup2 g2 then some g2 else none
       | none => none)
  | none =>
    match stripLit ("youtube.com/".toList) r with
    | some g2 => if matchGroup2 g2 then some g2 else none
    | none => none

/-- Scheme part: http, optional s, colon slash slash; the with-s branch is
tried first as the regex engine does. -/
def matchUrlRegex (s : List Char) : Option (List Char) :=
  match stripLit ("https://".toList) s with
  | some r => matchHost r
  | none =>
    match stripLit ("http://".toList) s with
    | some r => matchHost r
    | none => none

/-- input.startsWith of the at sign. -/
def startsWithAtSign (s : String) : Bool :=
  match s.toList with
  | '@' :: _ => true
  | _ => false

/-- extractUsername: return the input unchanged when it is already a handle,
otherwise match[2] of the url regex, otherwise null (None). -/
def extractUsername (input : String) : Option String :=
  if startsWithAtSign input then some input
  else
    match matchUrlRegex input.toList with
    | some g2 => some (String.mk g2)
    | none => none

/-! ### Upstream paginator: getPlaylistVideos

Translated from getPlaylistVideos in src/src/index.ts lines 82-116 (the
revision with the try/catch; the unnamed drizzle revision lines 71-91 is the
same loop without the catch). The network is an oracle from the current
pageToken (none for the first request) to either a parsed page or a failure
(network error or malformed payload). The do-while loop is given explicit
fuel; the outer none result marks fuel exhaustion and corresponds to no
TypeScript behaviour (the code would simply keep looping). -/

/-- The fields of playlistItems.snippet that the code reads: title,
resourceId.videoId, and thumbnails dot high dot url under optional chaining. -/
structure PlaylistSnippet where
  title : String
  resourceVideoId : String
  thumbnailHighUrl : Option String
deriving DecidableEq

/-- One item of a playlistItems page. -/
structure PlaylistItem where
  snippet : PlaylistSnippet
deriving DecidableEq

/-- One page of the playlistItems endpoint. -/
structure PlaylistPage where
  nextPageToken : Option String
  items : List PlaylistItem
deriving DecidableEq

/-- The record the loop pushes for each item. -/
structure VideoEntry where
  videoId : String
  videoTitle : String
  thumbnailUrl : Option String
deriving DecidableEq

/-- videos.push of videoId, videoTitle, thumbnailUrl for one response item. -/
def toVideoEntry (it : PlaylistItem) : VideoEntry :=
  { videoId := it.snippet.resourceVideoId
    videoTitle := it.snippet.title
    thumbnailUrl := it.snippet.thumbnailHighUrl }

/-- Outcome of one page fetch: a parsed page, or a thrown error. -/
inductive FetchResult where
  | ok (page : PlaylistPage)
  | err
deriving DecidableEq

/-- The do-while loop of getPlaylistVideos. On a thrown fetch the enclosing
catch returns the empty array. -/
def playlistLoop (fetchPage : Option String → FetchResult) :
    Nat → Option String → List VideoEntry → Option (List VideoEntry)
  | 0, _, _ => none
  | fuel + 1, token, acc =>
    match fetchPage token with
    | FetchResult.err => some []
    | FetchResult.ok page =>
      match page.nextPageToken with
      | none => some (acc ++ page.items.map toVideoEntry)
      | some t => playlistLoop fetchPage fuel (some t) (acc ++ page.items.map toVideoEntry)

/-- getPlaylistVideos: run the loop from the tokenless first request with an
empty accumulator. -/
def getPlaylistVideos (fetchPage : Option String → FetchResult) (fuel : Nat) :
    Option (List VideoEntry) :=
  playlistLoop fetchPage fuel none []

/-- Stub fetcher serving three chained pages and failing on any other token. -/
def threePageStub (p1 p2 p3 : List PlaylistItem) : Option String → FetchResult
  | none => FetchResult.ok { nextPageToken := some "page2", items := p1 }
  | some t =>
    if t = "page2" then FetchResult.ok { nextPageToken := some "page3", items := p2 }
    else if t = "page3" then FetchResult.ok { nextPageToken := none, items := p3 }
    else FetchResult.err

/-- A concrete playlist item for the stub pages. -/
def sampleItem : PlaylistItem :=
  { snippet := { title := "t", resourceVideoId := "v", thumbnailHighUrl := none } }

/-- Concrete first page of 50 items. -/
def samplePage1 : List PlaylistItem := List.replicate 50 sampleItem

/-- Concrete second page of 50 items. -/
def samplePage2 : List PlaylistItem := List.replicate 50 sampleItem

/-- Concrete third page of 10 items. -/
def samplePage3 : List PlaylistItem := List.replicate 10 sampleItem

/-- The item served on page one of the failing-page stub. -/
def cexPage1Item : PlaylistItem :=
  { snippet := { title := "title one", resourceVideoId := "vid1", thumbnailHighUrl := none } }

/-- Stub fetcher whose first page succeeds with one item and a continuation
token, and whose second request fails. -/
def failPage2Stub : Option String → FetchResult
  | none => FetchResult.ok { nextPageToken := some "tok2", items := [cexPage1Item] }
  | some _ => FetchResult.err

/-! ### Statistics fetch and aggregation join

getVideoStatistics is translated from src/src/index.ts lines 119-165: on a
thrown fetch, a missing items field, or an empty items array it fills the
sentinel for every requested id; otherwise it maps the response items and
fills the sentinel for every requested id with no returned statistics.
batchGetVideoStatistics (lines 168-181) slices the id list into groups of 50
and flattens the per-group results. The join of videos with statistics is the
videosWithStats mapping of the drizzle revision (unnamed file lines 254-266). -/

/-- One item of the videos endpoint response: id plus statistics counts. -/
structure StatItem where
  id : String
  viewCount : String
  likeCount : String
  commentCount : String
deriving DecidableEq

/-- The per-video record built by getVideoStatistics. -/
structure StatRecord where
  videoId : String
  viewCount : String
  likeCount : String
  commentCount : String
deriving DecidableEq

/-- The sentinel record: every count is the string N slash A. -/
def naRecord (id : String) : StatRecord :=
  { videoId := id, viewCount := "N/A", likeCount := "N/A", commentCount := "N/A" }

/-- Mapping of one response item into the record structure. -/
def toRecord (it : StatItem) : StatRecord :=
  { videoId := it.id, viewCount := it.viewCount
    likeCount := it.likeCount, commentCount := it.commentCount }

/-- stats.find by videoId with the sentinel as fallback. -/
def lookupStat (stats : List StatRecord) (id : String) : StatRecord :=
  match stats.find? (fun s => decide (s.videoId = id)) with
  | some st => st
  | none => naRecord id

/-- getVideoStatistics for one group of ids. The oracle returns none when the
fetch throws or the response has no items field, and the parsed items list
otherwise. -/
def getVideoStatistics (fetch : List String → Option (List StatItem))
    (videoIds : List String) : List StatRecord :=
  match fetch videoIds with
  | none => videoIds.map naRecord
  | some items =>
    if items.length = 0 then videoIds.map naRecord
    else videoIds.map (lookupStat (items.map toRecord))

/-- The record getVideoStatistics produces for one id of a group. -/
def statFor (fetch : List String → Option (List StatItem))
    (g : List String) (id : String) : StatRecord :=
  match fetch g with
  | none => naRecord id
  | some items =>
    if items.length = 0 then naRecord id
    else lookupStat (items.map toRecord) id

/-- The batching loop of batchGetVideoStatistics: slices of 50 ids. -/
def chunksOf50 {α : Type} : List α → List (List α)
  | [] => []
  | a :: rest => ((a :: rest).take 50) :: chunksOf50 ((a :: rest).drop 50)
termination_by l => l.length
decreasing_by simp; omega

/-- batchGetVideoStatistics: fetch every 50-id group and flatten the results
in group order. -/
def batchGetVideoStatistics (fetch : List String → Option (List StatItem))
    (videoIds : List String) : List StatRecord :=
  ((chunksOf50 videoIds).map (getVideoStatistics fetch)).flatten

/-- JS truthiness fallback x || d for an optionally present string: the
default is used when the value is absent or the empty string. -/
def jsOr (o : Option String) (d : String) : String :=
  match o with
  | some s => if s = "" then d else s
  | none => d

/-- One row of the aggregated response. -/
structure VideoWithStats where
  videoID : String
  channelName : String
  title : String
  url : String
  viewCount : String
  likeCount : String
  commentCount : String
  thumbnailUrl : Option String
deriving DecidableEq

/-- The arrow body of the videosWithStats map for one video. -/
def mkVideoWithStats (username : String) (stats : List StatRecord)
    (video : VideoEntry) : VideoWithStats :=
  { videoID := video.videoId
    channelName := username
    title := video.videoTitle
    url := "https://www.youtube.com/watch?v=" ++ video.videoId
    viewCount := jsOr ((stats.find? (fun s => decide (s.videoId = video.videoId))).map
      StatRecord.viewCount) "N/A"
    likeCount := jsOr ((stats.find? (fun s => decide (s.videoId = video.videoId))).map
      StatRecord.likeCount) "N/A"
    commentCount := jsOr ((stats.find? (fun s => decide (s.videoId = video.videoId))).map
      StatRecord.commentCount) "N/A"
    thumbnailUrl := video.thumbnailUrl }

/-- The videosWithStats join: one output row per fetched video, correlated to
statistics by id with the sentinel fallback. -/
def videosWithStats (username : String) (videos : List VideoEntry)
    (stats : List StatRecord) : List VideoWithStats :=
  videos.map (mkVideoWithStats username stats)

/-- The statistics list the request handler computes for the fetched videos:
batchGetVideoStatistics applied to the ids mapped out of the video list. -/
def handlerStats (fetch : List String → Option (List StatItem))
    (videos : List VideoEntry) : List StatRecord :=
  batchGetVideoStatistics fetch (videos.map VideoEntry.videoId)

/-- A concrete video used in the aggregation witness. -/
def wVideo : VideoEntry := { videoId := "v1", videoTitle := "t1", thumbnailUrl := none }

/-- The always-failing statistics fetch used in the aggregation witness. -/
def wFetchNone : List String → Option (List StatItem) := fun _ => none

/-! ### Persistence: batchInsertVideos

Translated from batchInsertVideos in the unnamed drizzle revision, lines
129-171. The current videos table contents are passed as the list of pairs
(videoId, database id) that the select produces; existingVideoMap.has is
membership of the external id among the first components. The rows actually
handed to the insert statement are the batches that autochunk builds from the
filtered new rows, with the default otherParametersCount of zero. -/

/-- One row of the videosData argument: a plain object with five keys. -/
structure VideoRow where
  videoId : String
  channelId : Nat
  title : String
  url : String
  thumbnailUrl : String
deriving DecidableEq

/-- Object.keys count of a video row object: five keys. -/
def videoRowParams (_ : VideoRow) : Nat := 5

/-- newVideosData: the rows whose external video id is not already present. -/
def newVideosData (existing : List (String × Nat)) (videosData : List VideoRow) :
    List VideoRow :=
  videosData.filter (fun v => ! existing.any (fun e => decide (e.1 = v.videoId)))

/-- The batches that batchInsertVideos passes to the insert callback. -/
def batchInsertVideosPlan (existing : List (String × Nat))
    (videosData : List VideoRow) : Except ChunkError (List (List VideoRow)) :=
  autochunkPlan videoRowParams (newVideosData existing videosData) 0

/-! ### Lemmas about the autochunk loop -/

theorem sumCost_nil {T : Type} (cost : T → Nat) : sumCost cost [] = 0 := rfl

theorem sumCost_append {T : Type} (cost : T → Nat) (l₁ l₂ : List T) :
    sumCost cost (l₁ ++ l₂) = sumCost cost l₁ + sumCost cost l₂ := by
  simp [sumCost]

theorem sumCost_singleton {T : Type} (cost : T → Nat) (t : T) :
    sumCost cost [t] = cost t := by
  simp [sumCost]

/-- Whatever chunks the loop returns, their concatenation is the already
accumulated chunks, then the current chunk, then the remaining items. -/
theorem autochunkLoop_flatten {T : Type} (cost : T → Nat) (other : Nat) :
    ∀ (rest : List T) (chunks : List (List T)) (chunk : List T) (cp : Nat)
      (out : List (List T)),
      autochunkLoop cost other rest chunks chunk cp = Except.ok out →
      out.flatten = chunks.flatten ++ chunk ++ rest := by
  intro rest
  induction rest with
  | nil =>
    intro chunks chunk cp out h
    by_cases hc : chunk.length ≠ 0
    · simp only [autochunkLoop, if_pos hc, Except.ok.injEq] at h
      subst h
      simp
    · have hnil : chunk = [] := by
        simpa using hc
      subst hnil
      simp only [autochunkLoop] at h
      simp only [List.length_nil, ne_eq, not_true_eq_false, if_false, Except.ok.injEq] at h
      subst h
      simp
  | cons item rest ih =>
    intro chunks chunk cp out h
    simp only [autochunkLoop] at h
    by_cases h1 : cost item > D1_MAX_PARAMETERS
    · rw [if_pos h1] at h
      exact absurd h (by simp)
    · rw [if_neg h1] at h
      by_cases h2 : cp + cost item + other > D1_MAX_PARAMETERS
      · rw [if_pos h2] at h
        have := ih (chunks ++ [chunk]) [item] (cost item) out h
        simpa [List.append_assoc] using this
      · rw [if_neg h2] at h
        have := ih chunks (chunk ++ [item]) (cp + cost item) out h
        simpa [List.append_assoc] using this

/-- If the plan succeeds, the concatenation of the produced batches is exactly
the input sequence. -/
theorem autochunkPlan_flatten {T : Type} (cost : T → Nat) (items : List T)
    (other : Nat) (out : List (List T))
    (h : autochunkPlan cost items other = Except.ok out) :
    out.flatten = items := by
  by_cases ho : other > D1_MAX_PARAMETERS
  · simp only [autochunkPlan, if_pos ho] at h
    exact absurd h (by simp)
  · simp only [autochunkPlan, if_neg ho] at h
    simpa using autochunkLoop_flatten cost other items [] [] 0 out h

/-- Invariant run of the loop: when every remaining item fits together with
the reserved count, the loop succeeds and every produced batch is non-empty
with total cost plus reserved count at most the ceiling. -/
theorem autochunkLoop_ok_bounded {T : Type} (cost : T → Nat) (other : Nat) :
    ∀ (rest : List T) (chunks : List (List T)) (chunk : List T),
      (∀ t ∈ rest, cost t + other ≤ D1_MAX_PARAMETERS) →
      sumCost cost chunk + other ≤ D1_MAX_PARAMETERS →
      (∀ b ∈ chunks, b ≠ [] ∧ sumCost cost b + other ≤ D1_MAX_PARAMETERS) →
      ∃ out, autochunkLoop cost other rest chunks chunk (sumCost cost chunk) =
          Except.ok out ∧
        ∀ b ∈ out, b ≠ [] ∧ sumCost cost b + other ≤ D1_MAX_PARAMETERS := by
  intro rest
  induction rest with
  | nil =>
    intro chunks chunk hrest hchunk hchunks
    refine ⟨if chunk.length ≠ 0 then chunks ++ [chunk] else chunks, rfl, ?_⟩
    by_cases hc : chunk.length ≠ 0
    · rw [if_pos hc]
      intro b hb
      rcases List.mem_append.mp hb with hb | hb
      · exact hchunks b hb
      · have hbe : b = chunk := by simpa using hb
        subst hbe
        exact ⟨by simpa using hc, hchunk⟩
    · rw [if_neg hc]
      exact hchunks
  | cons item rest ih =>
    intro chunks chunk hrest hchunk hchunks
    have hitem : cost item + other ≤ D1_MAX_PARAMETERS :=
      hrest item (List.mem_cons_self item rest)
    have hrest2 : ∀ t ∈ rest, cost t + other ≤ D1_MAX_PARAMETERS := by
      intro t ht
      exact hrest t (List.mem_cons_of_mem item ht)
    have h1 : ¬ cost item > D1_MAX_PARAMETERS := by omega
    by_cases h2 : sumCost cost chunk + cost item + other > D1_MAX_PARAMETERS
    · have hne : chunk ≠ [] := by
        intro hnil
        subst hnil
        rw [sumCost_nil] at h2
        omega
      have hchunks2 : ∀ b ∈ chunks ++ [chunk],
          b ≠ [] ∧ sumCost cost b + other ≤ D1_MAX_PARAMETERS := by
        intro b hb
        rcases List.mem_append.mp hb with hb | hb
        · exact hchunks b hb
        · have hbe : b = chunk := by simpa using hb
          subst hbe
          exact ⟨hne, hchunk⟩
      obtain ⟨out, hout, hprop⟩ := ih (chunks ++ [chunk]) [item] hrest2
        (by rw [sumCost_singleton]; exact hitem) hchunks2
      refine ⟨out, ?_, hprop⟩
      rw [autochunkLoop, if_neg h1, if_pos h2]
      rw [sumCost_singleton] at hout
      exact hout
    · obtain ⟨out, hout, hprop⟩ := ih chunks (chunk ++ [item]) hrest2
        (by rw [sumCost_append, sumCost_singleton]; omega) hchunks
      refine ⟨out, ?_, hprop⟩
      rw [autochunkLoop, if_neg h1, if_neg h2]
      rw [sumCost_append, sumCost_singleton] at hout
      exact hout

/-- Plan-level version of the bounded-batches invariant. -/
theorem autochunkPlan_ok_bounded {T : Type} (cost : T → Nat) (items : List T)
    (other : Nat) (hother : other ≤ D1_MAX_PARAMETERS)
    (hitems : ∀ t ∈ items, cost t + other ≤ D1_MAX_PARAMETERS) :
    ∃ out, autochunkPlan cost items other = Except.ok out ∧
      ∀ b ∈ out, b ≠ [] ∧ sumCost cost b + other ≤ D1_MAX_PARAMETERS := by
  have ho : ¬ other > D1_MAX_PARAMETERS := by omega
  obtain ⟨out, hout, hprop⟩ := autochunkLoop_ok_bounded cost other items [] []
    hitems (by rw [sumCost_nil]; omega) (by intro b hb; simp at hb)
  refine ⟨out, ?_, hprop⟩
  rw [autochunkPlan, if_neg ho]
  exact hout

/-- If some item whose cost exceeds the ceiling occurs after items that all
pass the per-item check, the loop throws ItemTooLarge with the cost of the
first such item. -/
theorem autochunkLoop_item_err {T : Type} (cost : T → Nat) (other : Nat)
    (bad : T) (post : List T) (hbad : cost bad > D1_MAX_PARAMETERS) :
    ∀ (pre : List T) (chunks : List (List T)) (chunk : List T) (cp : Nat),
      (∀ t ∈ pre, cost t ≤ D1_MAX_PARAMETERS) →
      autochunkLoop cost other (pre ++ bad :: post) chunks chunk cp =
        Except.error (ChunkError.itemTooLarge (cost bad)) := by
  intro pre
  induction pre with
  | nil =>
    intro chunks chunk cp _
    rw [List.nil_append, autochunkLoop, if_pos hbad]
  | cons a pre ih =>
    intro chunks chunk cp hpre
    have ha : ¬ cost a > D1_MAX_PARAMETERS := by
      have := hpre a (List.mem_cons_self a pre)
      omega
    have hpre2 : ∀ t ∈ pre, cost t ≤ D1_MAX_PARAMETERS := by
      intro t ht
      exact hpre t (List.mem_cons_of_mem a ht)
    rw [List.cons_append, autochunkLoop, if_neg ha]
    by_cases h2 : cp + cost a + other > D1_MAX_PARAMETERS
    · rw [if_pos h2]
      exact ih (chunks ++ [chunk]) [a] (cost a) hpre2
    · rw [if_neg h2]
      exact ih chunks (chunk ++ [a]) (cp + cost a) hpre2

/-! ### Claims about the chunk planner -/

/-- C1 counterexample: the claim that for every reserved count at most 100
every batch passed to the write callback is non-empty with total cost plus
reserved count at most the ceiling is false at the concrete input consisting
of a single 60-key object with 50 reserved parameters: the plan passes the
batches [[], [bigItem60]], whose first batch is empty (and whose second has
total cost 60 + 50 = 110 over the ceiling). -/
theorem autochunk_claim_c1_cex :
    ¬ (∀ bs, autochunkPlan itemParams [bigItem60] 50 = Except.ok bs →
        ∀ b ∈ bs, b ≠ [] ∧ sumCost itemParams b + 50 ≤ D1_MAX_PARAMETERS) := by
  intro h
  exact (h [[], [bigItem60]] rfl [] (by simp)).1 rfl

/-- C1 (amended): for every input sequence and every reserved count at most
100 such that every item cost plus the reserved count is at most 100, the
plan succeeds and every batch passed to the write callback is non-empty with
total parameter cost plus reserved count at most the ceiling of 100. -/
theorem autochunk_batches_nonempty_bounded (items : List ChunkItem) (other : Nat)
    (hother : other ≤ D1_MAX_PARAMETERS)
    (hitems : ∀ t ∈ items, itemParams t + other ≤ D1_MAX_PARAMETERS) :
    ∃ bs, autochunkPlan itemParams items other = Except.ok bs ∧
      ∀ b ∈ bs, b ≠ [] ∧ sumCost itemParams b + other ≤ D1_MAX_PARAMETERS :=
  autochunkPlan_ok_bounded itemParams items other hother hitems

/-- Witness for the amended C1 at a concrete input. -/
theorem autochunk_batches_nonempty_bounded_witness :
    ∃ bs, autochunkPlan itemParams [ChunkItem.num 1, ChunkItem.num 2] 99 = Except.ok bs ∧
      ∀ b ∈ bs, b ≠ [] ∧ sumCost itemParams b + 99 ≤ D1_MAX_PARAMETERS :=
  autochunk_batches_nonempty_bounded [ChunkItem.num 1, ChunkItem.num 2] 99
    (by decide) (by decide)

/-- C2: for every non-empty input on which autochunk succeeds, with a write
callback returning exactly one result per batch item in batch order (modelled
as a per-item map), the flattened output has the length of the input and the
results appear in input order. -/
theorem autochunk_flat_order {U : Type} (items : List ChunkItem) (other : Nat)
    (f : ChunkItem → U) (us : List U) (_hne : items ≠ [])
    (h : autochunk itemParams items (fun c => c.map f) other = Except.ok us) :
    us.length = items.length ∧ us = items.map f := by
  cases hp : autochunkPlan itemParams items other with
  | error e =>
    rw [autochunk, hp] at h
    exact absurd h (by simp)
  | ok bs =>
    rw [autochunk, hp] at h
    have hus : us = (bs.map (fun c => c.map f)).flatten := by
      simpa using h.symm
    have hj : bs.flatten = items := autochunkPlan_flatten itemParams items other bs hp
    have hmain : us = items.map f := by
      rw [hus, ← List.map_flatten, hj]
    exact ⟨by rw [hmain, List.length_map], hmain⟩

/-- Witness for C2 at a concrete one-item input. -/
theorem autochunk_flat_order_witness :
    ([ChunkItem.num 7] : List ChunkItem).length = ([ChunkItem.num 7] : List ChunkItem).length ∧
      ([ChunkItem.num 7] : List ChunkItem) = [ChunkItem.num 7].map (fun x => x) :=
  autochunk_flat_order [ChunkItem.num 7] 0 (fun x => x) [ChunkItem.num 7]
    (by decide) rfl

/-- C3: when the input contains an item whose own cost exceeds the ceiling
(and the reserved count passes its pre-check), planning fails with
ItemTooLarge naming the cost of the first such item, and the write callback
is never invoked: no batch list is ever produced and the whole call returns
the error. -/
theorem autochunk_item_too_large {U : Type} (pre post : List ChunkItem)
    (bad : ChunkItem) (other : Nat) (cb : List ChunkItem → List U)
    (hother : other ≤ D1_MAX_PARAMETERS)
    (hpre : ∀ t ∈ pre, itemParams t ≤ D1_MAX_PARAMETERS)
    (hbad : itemParams bad > D1_MAX_PARAMETERS) :
    autochunkPlan itemParams (pre ++ bad :: post) other =
        Except.error (ChunkError.itemTooLarge (itemParams bad)) ∧
      autochunk itemParams (pre ++ bad :: post) cb other =
        Except.error (ChunkError.itemTooLarge (itemParams bad)) := by
  have ho : ¬ other > D1_MAX_PARAMETERS := by omega
  have hp : autochunkPlan itemParams (pre ++ bad :: post) other =
      Except.error (ChunkError.itemTooLarge (itemParams bad)) := by
    rw [autochunkPlan, if_neg ho]
    exact autochunkLoop_item_err itemParams other bad post hbad pre [] [] 0 hpre
  exact ⟨hp, by rw [autochunk, hp]⟩

/-- Witness for C3 with a 101-key object as the only item. -/
theorem autochunk_item_too_large_witness :
    autochunkPlan itemParams ([] ++ bigItem101 :: []) 0 =
        Except.error (ChunkError.itemTooLarge (itemParams bigItem101)) ∧
      autochunk itemParams ([] ++ bigItem101 :: []) (fun c => c) 0 =
        Except.error (ChunkError.itemTooLarge (itemParams bigItem101)) :=
  autochunk_item_too_large [] [] bigItem101 0 (fun c => c) (by decide)
    (by simp) (by simp [itemParams, bigItem101, keys101, D1_MAX_PARAMETERS])

/-- C4: a reserved count strictly greater than the ceiling fails with
PrecheckFailed for every input sequence; the check precedes the item loop, so
no item is consumed and the write callback is never invoked. -/
theorem autochunk_precheck_failed {U : Type} (items : List ChunkItem)
    (other : Nat) (cb : List ChunkItem → List U)
    (h : other > D1_MAX_PARAMETERS) :
    autochunkPlan itemParams items other =
        Except.error (ChunkError.precheckFailed other) ∧
      autochunk itemParams items cb other =
        Except.error (ChunkError.precheckFailed other) := by
  have hp : autochunkPlan itemParams items other =
      Except.error (ChunkError.precheckFailed other) := by
    rw [autochunkPlan, if_pos h]
  exact ⟨hp, by rw [autochunk, hp]⟩

/-- Witness for C4 with reserved count 101. -/
theorem autochunk_precheck_failed_witness :
    autochunkPlan itemParams [ChunkItem.num 1] 101 =
        Except.error (ChunkError.precheckFailed 101) ∧
      autochunk itemParams [ChunkItem.num 1] (fun c => c) 101 =
        Except.error (ChunkError.precheckFailed 101) :=
  autochunk_precheck_failed [ChunkItem.num 1] 101 (fun c => c) (by decide)

/-- C10: whenever the planner reaches the execution phase, the concatenation
of the batches passed to the callback, in invocation order, is exactly the
input sequence; an empty input yields zero batches and an empty overall
result. -/
theorem autochunk_concat_batches {U : Type} (items : List ChunkItem)
    (other : Nat) (cb : List ChunkItem → List U) (bs : List (List ChunkItem))
    (h : autochunkPlan itemParams items other = Except.ok bs) :
    bs.flatten = items ∧
      (items = [] → bs = [] ∧
        autochunk itemParams items cb other = Except.ok ([] : List U)) := by
  refine ⟨autochunkPlan_flatten itemParams items other bs h, ?_⟩
  intro hempty
  subst hempty
  by_cases ho : other > D1_MAX_PARAMETERS
  · rw [autochunkPlan, if_pos ho] at h
    exact absurd h (by simp)
  · rw [autochunkPlan, if_neg ho] at h
    have h2 : Except.ok ([] : List (List ChunkItem)) = Except.ok bs := h
    have hbs : bs = [] := by simpa using h2.symm
    subst hbs
    have hplan : autochunkPlan itemParams ([] : List ChunkItem) other =
        Except.ok ([] : List (List ChunkItem)) := by
      rw [autochunkPlan, if_neg ho]
      rfl
    refine ⟨rfl, ?_⟩
    rw [autochunk, hplan]
    rfl

/-- Witness for C10 at a concrete one-item input. -/
theorem autochunk_concat_batches_witness :
    ([[ChunkItem.num 1]] : List (List ChunkItem)).flatten = [ChunkItem.num 1] ∧
      (([ChunkItem.num 1] : List ChunkItem) = [] → [[ChunkItem.num 1]] = ([] : List (List ChunkItem)) ∧
        autochunk itemParams [ChunkItem.num 1] (fun _ => ([] : List Nat)) 0 =
          Except.ok ([] : List Nat)) :=
  autochunk_concat_batches [ChunkItem.num 1] 0 (fun _ => ([] : List Nat))
    [[ChunkItem.num 1]] rfl

/-! ### Claims about the identity resolver -/

/-- C5 counterexample: the resolver does not return Bar for the custom URL;
match[2] spans the whole second capture group, which includes the c-slash
prefix, so the result is c-slash-Bar. -/
theorem extractUsername_claim_cex :
    extractUsername "https://youtube.com/c/Bar" ≠ some "Bar" := by
  decide

/-- C5 (amended): the resolver returns the handle unchanged for a handle
input, returns the full second capture group c-slash-Bar (not the bare Bar)
for the custom URL, and returns none for a non-youtube URL; it is a pure
function. -/
theorem extractUsername_cases :
    extractUsername "@foo" = some "@foo" ∧
      extractUsername "https://youtube.com/c/Bar" = some "c/Bar" ∧
      extractUsername "https://example.com/x" = none :=
  ⟨rfl, rfl, rfl⟩

/-! ### Claims about the upstream paginator -/

/-- C6 counterexample: with a first page delivering one item and a
continuation token and the second page request failing, getPlaylistVideos
returns the empty list, not the items accumulated from the first page. -/
theorem getPlaylistVideos_drops_accumulated_cex :
    getPlaylistVideos failPage2Stub 2 = some [] ∧
      getPlaylistVideos failPage2Stub 2 ≠ some [toVideoEntry cexPage1Item] :=
  ⟨rfl, by decide⟩

/-- C6 (amended): whenever a page fetch fails (network error or malformed
payload), at whatever page the loop has reached, the function returns the
empty list, discarding the items accumulated so far; the error is swallowed
by the catch and is not propagated to the caller as an exception. -/
theorem playlistLoop_error_returns_empty (f : Option String → FetchResult)
    (fuel : Nat) (tok : Option String) (acc : List VideoEntry)
    (h : f tok = FetchResult.err) :
    playlistLoop f (fuel + 1) tok acc = some [] := by
  simp only [playlistLoop, h]

/-- Witness for the amended C6: the failing second page of the concrete stub. -/
theorem playlistLoop_error_returns_empty_witness :
    playlistLoop failPage2Stub 1 (some "tok2") [toVideoEntry cexPage1Item] = some [] :=
  playlistLoop_error_returns_empty failPage2Stub 0 (some "tok2")
    [toVideoEntry cexPage1Item] rfl

/-- C8: a paged fetch of three chained pages of 50, 50 and 10 items yields
exactly 110 items, all of page one, then page two, then page three, each in
within-page order. -/
theorem getPlaylistVideos_three_pages (p1 p2 p3 : List PlaylistItem)
    (h1 : p1.length = 50) (h2 : p2.length = 50) (h3 : p3.length = 10) :
    getPlaylistVideos (threePageStub p1 p2 p3) 3 =
        some ((p1 ++ p2 ++ p3).map toVideoEntry) ∧
      ((p1 ++ p2 ++ p3).map toVideoEntry).length = 110 := by
  constructor
  · have hrun : getPlaylistVideos (threePageStub p1 p2 p3) 3 =
        some ((([] ++ p1.map toVideoEntry) ++ p2.map toVideoEntry) ++
          p3.map toVideoEntry) := rfl
    rw [hrun]
    simp
  · simp [h1, h2, h3]

/-- Witness for C8 with concrete pages of 50, 50 and 10 items. -/
theorem getPlaylistVideos_three_pages_witness :
    getPlaylistVideos (threePageStub samplePage1 samplePage2 samplePage3) 3 =
        some ((samplePage1 ++ samplePage2 ++ samplePage3).map toVideoEntry) ∧
      ((samplePage1 ++ samplePage2 ++ samplePage3).map toVideoEntry).length = 110 :=
  getPlaylistVideos_three_pages samplePage1 samplePage2 samplePage3
    (by simp [samplePage1]) (by simp [samplePage2]) (by simp [samplePage3])

/-! ### Claim about the video insert layer -/

/-- C9: batchInsertVideos hands the insert statement exactly the rows whose
external video id is not already present in the store: the concatenation of
the insert batches is the filtered new-rows list, no batched row has an id
that is already present, and every input row with a fresh id is batched. -/
theorem batchInsertVideos_skips_existing (existing : List (String × Nat))
    (videosData : List VideoRow) :
    ∃ bs, batchInsertVideosPlan existing videosData = Except.ok bs ∧
      bs.flatten = newVideosData existing videosData ∧
      (∀ b ∈ bs, ∀ v ∈ b,
        existing.any (fun e => decide (e.1 = v.videoId)) = false) ∧
      (∀ v ∈ videosData,
        existing.any (fun e => decide (e.1 = v.videoId)) = false →
        v ∈ bs.flatten) := by
  obtain ⟨bs, hok, hprop⟩ := autochunkPlan_ok_bounded videoRowParams
    (newVideosData existing videosData) 0 (by decide)
    (by intro t ht; exact (by decide : (5 : Nat) + 0 ≤ 100))
  have hflat : bs.flatten = newVideosData existing videosData :=
    autochunkPlan_flatten videoRowParams _ 0 bs hok
  refine ⟨bs, hok, hflat, ?_, ?_⟩
  · intro b hb v hv
    have hvmem : v ∈ bs.flatten := List.mem_flatten_of_mem hb hv
    rw [hflat] at hvmem
    have hpred := (List.mem_filter.mp hvmem).2
    simpa using hpred
  · intro v hv hnot
    rw [hflat]
    exact List.mem_filter.mpr ⟨hv, by simp [hnot]⟩

/-! ### Lemmas for the statistics aggregation -/

theorem chunksOf50_flatten {α : Type} (l : List α) : (chunksOf50 l).flatten = l := by
  induction l using chunksOf50.induct with
  | case1 => simp [chunksOf50]
  | case2 a rest ih =>
    rw [chunksOf50]
    rw [List.flatten_cons, ih, List.take_append_drop]

theorem statFor_videoId (fetch : List String → Option (List StatItem))
    (g : List String) (id : String) : (statFor fetch g id).videoId = id := by
  cases hf : fetch g with
  | none => simp [statFor, hf, naRecord]
  | some items =>
    by_cases hlen : items.length = 0
    · simp [statFor, hf, hlen, naRecord]
    · simp only [statFor, hf, if_neg hlen]
      cases hfind : (items.map toRecord).find? (fun s => decide (s.videoId = id)) with
      | none => simp [lookupStat, hfind, naRecord]
      | some st =>
        have hst := List.find?_some hfind
        simp only [lookupStat, hfind]
        exact of_decide_eq_true hst

theorem getVideoStatistics_eq_map (fetch : List String → Option (List StatItem))
    (g : List String) :
    getVideoStatistics fetch g = g.map (statFor fetch g) := by
  cases hf : fetch g with
  | none =>
    simp only [getVideoStatistics, hf]
    exact List.map_congr_left fun id _ => by simp [statFor, hf]
  | some items =>
    by_cases hlen : items.length = 0
    · simp only [getVideoStatistics, hf, if_pos hlen]
      exact List.map_congr_left fun id _ => by simp [statFor, hf, hlen]
    · simp only [getVideoStatistics, hf, if_neg hlen]
      exact List.map_congr_left fun id _ => by simp [statFor, hf, hlen]

theorem batchGetVideoStatistics_ids (fetch : List String → Option (List StatItem))
    (ids : List String) :
    (batchGetVideoStatistics fetch ids).map StatRecord.videoId = ids := by
  unfold batchGetVideoStatistics
  rw [List.map_flatten, List.map_map]
  have hcong : ∀ g ∈ chunksOf50 ids,
      ((List.map StatRecord.videoId) ∘ (getVideoStatistics fetch)) g = g := by
    intro g _
    simp only [Function.comp_apply]
    rw [getVideoStatistics_eq_map, List.map_map]
    have hpt : ∀ a ∈ g, (StatRecord.videoId ∘ statFor fetch g) a = a := by
      intro a _
      exact statFor_videoId fetch g a
    rw [List.map_congr_left hpt, List.map_id']
  rw [List.map_congr_left hcong, List.map_id']
  exact chunksOf50_flatten ids

theorem find_in_batchStats (fetch : List String → Option (List StatItem))
    (ids : List String) (hnd : ids.Nodup) (g : List String)
    (hg : g ∈ chunksOf50 ids) (id : String) (hid : id ∈ g) :
    (batchGetVideoStatistics fetch ids).find? (fun s => decide (s.videoId = id)) =
      some (statFor fetch g id) := by
  have hflat : (chunksOf50 ids).flatten = ids := chunksOf50_flatten ids
  have hndJ : (chunksOf50 ids).flatten.Nodup := by rw [hflat]; exact hnd
  have hpair : (chunksOf50 ids).Pairwise List.Disjoint := (List.nodup_flatten.mp hndJ).2
  have hmem : statFor fetch g id ∈ batchGetVideoStatistics fetch ids := by
    unfold batchGetVideoStatistics
    refine List.mem_flatten_of_mem (List.mem_map_of_mem (getVideoStatistics fetch) hg) ?_
    rw [getVideoStatistics_eq_map]
    exact List.mem_map_of_mem _ hid
  have hp : (fun s => decide (s.videoId = id)) (statFor fetch g id) = true := by
    simp [statFor_videoId]
  have hsome : ((batchGetVideoStatistics fetch ids).find?
      (fun s => decide (s.videoId = id))).isSome := by
    rw [List.find?_isSome]
    exact ⟨_, hmem, hp⟩
  obtain ⟨r, hr⟩ := Option.isSome_iff_exists.mp hsome
  have hrmem : r ∈ batchGetVideoStatistics fetch ids := List.mem_of_find?_eq_some hr
  have hrid : r.videoId = id := by simpa using List.find?_some hr
  unfold batchGetVideoStatistics at hrmem
  obtain ⟨gs, hgs, hrgs⟩ := List.mem_flatten.mp hrmem
  obtain ⟨g2, hg2, hgseq⟩ := List.mem_map.mp hgs
  rw [← hgseq, getVideoStatistics_eq_map] at hrgs
  obtain ⟨id2, hid2, hre⟩ := List.mem_map.mp hrgs
  have hid2e : id2 = id := by
    rw [← hre] at hrid
    rw [← hrid]
    exact (statFor_videoId fetch g2 id2).symm
  have hidg2 : id ∈ g2 := hid2e ▸ hid2
  by_cases hgg : g = g2
  · rw [hr, ← hre, ← hgg, hid2e]
  · have hdisj : List.Disjoint g g2 :=
      List.Pairwise.forall (fun _ _ hd => hd.symm) hpair hg hg2 hgg
    exact absurd hidg2 (hdisj hid)

theorem statFor_na (fetch : List String → Option (List StatItem))
    (g : List String) (id : String)
    (h : fetch g = none ∨ ∃ items, fetch g = some items ∧
      items.find? (fun it => decide (it.id = id)) = none) :
    statFor fetch g id = naRecord id := by
  rcases h with h | ⟨items, hf, hfind⟩
  · simp [statFor, h]
  · simp only [statFor, hf]
    by_cases hlen : items.length = 0
    · rw [if_pos hlen]
    · rw [if_neg hlen]
      unfold lookupStat
      rw [List.find?_map]
      have hcomp : ((fun s => decide (s.videoId = id)) ∘ toRecord) =
          (fun it => decide (it.id = id)) := funext fun it => rfl
      rw [hcomp, hfind]
      rfl

theorem statFor_found (fetch : List String → Option (List StatItem))
    (g : List String) (id : String) (items : List StatItem) (it : StatItem)
    (hf : fetch g = some items) (hlen : items.length ≠ 0)
    (hfind : items.find? (fun i => decide (i.id = id)) = some it) :
    statFor fetch g id = toRecord it := by
  simp only [statFor, hf, if_neg hlen]
  unfold lookupStat
  rw [List.find?_map]
  have hcomp : ((fun s => decide (s.videoId = id)) ∘ toRecord) =
      (fun i => decide (i.id = id)) := funext fun i => rfl
  rw [hcomp, hfind]
  rfl

/-- C7: the aggregated response has exactly one row per fetched video, in
order; a video whose statistics fetch returned nothing (the whole 50-id group
failed, or the group succeeded without an entry for that id) carries the
sentinel for all three counts; a video whose group succeeded with an entry
carrying non-empty counts keeps those fetched counts. Stated for video lists
with pairwise-distinct ids (playlist items name distinct videos). -/
theorem aggregation_na_substitution (username : String) (videos : List VideoEntry)
    (fetch : List String → Option (List StatItem))
    (hnodup : (videos.map VideoEntry.videoId).Nodup) :
    (videosWithStats username videos (handlerStats fetch videos)).map
        VideoWithStats.videoID = videos.map VideoEntry.videoId ∧
      (∀ v ∈ videos, ∀ g ∈ chunksOf50 (videos.map VideoEntry.videoId),
        v.videoId ∈ g →
        (fetch g = none ∨ ∃ items, fetch g = some items ∧
          items.find? (fun it => decide (it.id = v.videoId)) = none) →
        (mkVideoWithStats username (handlerStats fetch videos) v).viewCount = "N/A" ∧
          (mkVideoWithStats username (handlerStats fetch videos) v).likeCount = "N/A" ∧
          (mkVideoWithStats username (handlerStats fetch videos) v).commentCount = "N/A") ∧
      (∀ v ∈ videos, ∀ g ∈ chunksOf50 (videos.map VideoEntry.videoId),
        v.videoId ∈ g → ∀ items, fetch g = some items → items.length ≠ 0 →
        ∀ it, items.find? (fun i => decide (i.id = v.videoId)) = some it →
        it.viewCount ≠ "" → it.likeCount ≠ "" → it.commentCount ≠ "" →
        (mkVideoWithStats username (handlerStats fetch videos) v).viewCount =
            it.viewCount ∧
          (mkVideoWithStats username (handlerStats fetch videos) v).likeCount =
            it.likeCount ∧
          (mkVideoWithStats username (handlerStats fetch videos) v).commentCount =
            it.commentCount) := by
  refine ⟨?_, ?_, ?_⟩
  · rw [videosWithStats, List.map_map]
    exact List.map_congr_left fun v _ => rfl
  · intro v hv g hg hid hfail
    have hfind : (handlerStats fetch videos).find?
        (fun s => decide (s.videoId = v.videoId)) = some (naRecord v.videoId) := by
      have h0 := find_in_batchStats fetch (videos.map VideoEntry.videoId) hnodup
        g hg v.videoId hid
      rw [statFor_na fetch g v.videoId hfail] at h0
      exact h0
    refine ⟨?_, ?_, ?_⟩ <;> simp [mkVideoWithStats, hfind, jsOr, naRecord]
  · intro v hv g hg hid items hf hlen it hfind2 hvc hlc hcc
    have hfind : (handlerStats fetch videos).find?
        (fun s => decide (s.videoId = v.videoId)) = some (toRecord it) := by
      have h0 := find_in_batchStats fetch (videos.map VideoEntry.videoId) hnodup
        g hg v.videoId hid
      rw [statFor_found fetch g v.videoId items it hf hlen hfind2] at h0
      exact h0
    refine ⟨?_, ?_, ?_⟩ <;>
      simp [mkVideoWithStats, hfind, jsOr, toRecord, hvc, hlc, hcc]

/-- Witness for C7 with one video and an always-failing statistics fetch. -/
theorem aggregation_na_substitution_witness :
    (videosWithStats "u" [wVideo] (handlerStats wFetchNone [wVideo])).map
        VideoWithStats.videoID = [wVideo].map VideoEntry.videoId ∧
      (∀ v ∈ [wVideo], ∀ g ∈ chunksOf50 ([wVideo].map VideoEntry.videoId),
        v.videoId ∈ g →
        (wFetchNone g = none ∨ ∃ items, wFetchNone g = some items ∧
          items.find? (fun it => decide (it.id = v.videoId)) = none) →
        (mkVideoWithStats "u" (handlerStats wFetchNone [wVideo]) v).viewCount = "N/A" ∧
          (mkVideoWithStats "u" (handlerStats wFetchNone [wVideo]) v).likeCount = "N/A" ∧
          (mkVideoWithStats "u" (handlerStats wFetchNone [wVideo]) v).commentCount = "N/A") ∧
      (∀ v ∈ [wVideo], ∀ g ∈ chunksOf50 ([wVideo].map VideoEntry.videoId),
        v.videoId ∈ g → ∀ items, wFetchNone g = some items → items.length ≠ 0 →
        ∀ it, items.find? (fun i => decide (i.id = v.videoId)) = some it →
        it.viewCount ≠ "" → it.likeCount ≠ "" → it.commentCount ≠ "" →
        (mkVideoWithStats "u" (handlerStats wFetchNone [wVideo]) v).viewCount =
            it.viewCount ∧
          (mkVideoWithStats "u" (handlerStats wFetchNone [wVideo]) v).likeCount =
            it.likeCount ∧
          (mkVideoWithStats "u" (handlerStats wFetchNone [wVideo]) v).commentCount =
            it.commentCount) :=
  aggregation_na_substitution "u" [wVideo] wFetchNone (by decide)
